import Mathlib

/-!
Shallow embedding of the serverless audio-transcription handler
(`packages/sample/emails/__main__.py`).

The module has three functions:

* `convert_audio_to_wav` (the Audio Normalizer): writes the input bytes to a
  temporary file, derives a format hint from the filename extension, decodes
  via pydub (retrying once without a hint on failure), applies three
  normalization transforms, exports WAV, and unlinks the temporary file.
* `transcribe_audio` (the Transcription Client): writes the WAV bytes to a
  second temporary file, submits them to the remote transcription service,
  unlinks the file, and returns the service's result object.
* `main` (the request handler): resolves the input (inline base64 or URL
  download), runs the pipeline, and formats a `{statusCode, body}` response,
  catching every exception at the boundary.

External collaborators (pydub/ffmpeg decode and export, the transcription
service, HTTP GET, base64 decoding) are modelled as oracle fields of an
`Env` record; each fallible call returns `Except String _`, where `.error m`
stands for a raised Python exception with message `m`. Side effects
(temporary-file creation/deletion, decode attempts, HTTP requests, service
calls) are recorded in an event trace, so that resource-safety and
"component not invoked" claims become statements about the trace.
-/

namespace Emails

/-- Raw byte sequences (Python `bytes`). -/
abbrev Bytes := List Nat

/-- Truthiness of a Python optional-string value: `None` and the empty
string are falsy, every other string is truthy. -/
def pyTruthy : Option String → Bool
  | none => false
  | some s => !s.isEmpty

/-- Index of the last occurrence of `c` in `cs` (Python `str.rfind`,
returning `none` instead of `-1`). -/
def lastIdx (cs : List Char) (c : Char) : Option Nat :=
  (List.range cs.length).foldl
    (fun best i => if cs.getD i c = c then some i else best) none

/-- Extension part of `os.path.splitext` for POSIX paths: the substring from
the last dot onward, provided that dot lies after the last path separator
and the basename does not consist solely of leading dots up to it;
otherwise the empty string. -/
def splitextExt (s : String) : String :=
  let cs := s.toList
  let sep : Int := match lastIdx cs '/' with | some i => (i : Int) | none => -1
  let dot : Int := match lastIdx cs '.' with | some i => (i : Int) | none => -1
  if dot > sep then
    let d := dot.toNat
    let lo := (sep + 1).toNat
    if (List.range d).any (fun i => decide (lo ≤ i) && (cs.getD i '.' ≠ '.')) then
      String.mk (cs.drop d)
    else ""
  else ""

/-- ASCII lower-casing of one character (the filename extensions concerned
are ASCII, where Python `str.lower` agrees). -/
def lowerChar (c : Char) : Char :=
  if 'A' ≤ c ∧ c ≤ 'Z' then Char.ofNat (c.toNat + 32) else c

/-- Python `str.lower()` on ASCII strings. -/
def pyLower (s : String) : String :=
  String.mk (s.toList.map lowerChar)

/-- Python `str.replace(".", "")`: remove every dot. -/
def removeDots (s : String) : String :=
  String.mk (s.toList.filter (· ≠ '.'))

/-- Python `s.startswith(p)`, computed structurally on the character
lists. -/
def strStartsWith (s p : String) : Bool :=
  p.toList.isPrefixOf s.toList

/-- Allow-list of extensions accepted as an explicit decode format hint
(line 39 of the source). -/
def audioFormats : List String := ["mp3", "wav", "flac", "ogg", "aac", "m4a", "wma"]

/-- Format hint computation of `convert_audio_to_wav` (lines 32-39): from a
truthy `original_filename`, take the extension, lower-case it, strip the
dot, and keep it only when it is non-empty and in the allow-list. The
result is the format passed to the first decode attempt (`none` = no hint,
i.e. automatic detection). -/
def formatHint (original_filename : Option String) : Option String :=
  if pyTruthy original_filename then
    let input_format := removeDots (pyLower (splitextExt (original_filename.getD "")))
    if !input_format.isEmpty && audioFormats.contains input_format then
      some input_format
    else none
  else none

/-- Result object of the remote transcription service: a `text` field plus
the rest of the verbose/structured payload, kept opaque. -/
structure Transcription (σ : Type) where
  text : String
  rest : σ
  deriving Repr, DecidableEq

/-- Observable side effects of one handler invocation. Temporary-file paths
are abstracted as natural numbers (`tempfile.NamedTemporaryFile` hands out
fresh paths; the normalizer's file is path 0, the transcription client's is
path 1). -/
inductive Ev where
  /-- a temporary file was created at the given path (`NamedTemporaryFile`, `delete=False`) -/
  | tmpCreate (path : Nat)
  /-- a temporary file was unlinked (`os.unlink`) -/
  | tmpDelete (path : Nat)
  /-- one pydub decode attempt with the given format hint (`AudioSegment.from_file`) -/
  | decodeAttempt (hint : Option String)
  /-- an HTTP GET of the given URL (`requests.get`) -/
  | httpGet (url : String)
  /-- one call to the remote transcription service -/
  | transcribeCall
  deriving Repr, DecidableEq

/-- Oracle environment for the external collaborators. `α` is the opaque
type of decoded pydub audio segments, `σ` the opaque remainder of the
service's result payload. `Except.error m` models a raised exception with
message `m`. -/
structure Env (α σ : Type) where
  /-- `AudioSegment.from_file` on a file holding the given bytes, with an optional format hint -/
  decode : Bytes → Option String → Except String α
  /-- `AudioSegment.set_frame_rate` -/
  setFrameRate : Nat → α → α
  /-- `AudioSegment.set_channels` -/
  setChannels : Nat → α → α
  /-- `AudioSegment.set_sample_width` -/
  setSampleWidth : Nat → α → α
  /-- `AudioSegment.export(format="wav", codec="pcm_s16le")` into a `BytesIO` buffer -/
  exportWav : α → Except String Bytes
  /-- `client.audio.transcriptions.create` on the given WAV bytes, filename and language -/
  transcribe : Bytes → String → String → Except String (Transcription σ)
  /-- `requests.get url`, returning a status code and the body content -/
  httpGet : String → Except String (Nat × Bytes)
  /-- `base64.b64decode` -/
  b64decode : String → Except String Bytes

/-- Audio Normalizer, embedding `convert_audio_to_wav` (lines 11-67).
Writes the input to a temporary file, decodes it (first attempt with the
`formatHint`, one retry with automatic detection on failure), applies the
three normalization transforms, exports WAV, and unlinks the temporary
file. The outer `except ... raise` re-raises, so an error propagates
unchanged -- and the `os.unlink` on line 60 is reached only after a
successful export. -/
def convert_audio_to_wav {α σ : Type} (env : Env α σ) (tmpPath : Nat)
    (audio_data : Bytes) (original_filename : Option String) :
    Except String Bytes × List Ev :=
  let firstHint := formatHint original_filename
  let decoded : Except String α × List Ev :=
    match env.decode audio_data firstHint with
    | .ok sound => (.ok sound, [Ev.decodeAttempt firstHint])
    | .error _ =>
      match env.decode audio_data none with
      | .ok sound => (.ok sound, [Ev.decodeAttempt firstHint, Ev.decodeAttempt none])
      | .error e2 => (.error e2, [Ev.decodeAttempt firstHint, Ev.decodeAttempt none])
  match decoded with
  | (.error e, trD) => (.error e, Ev.tmpCreate tmpPath :: trD)
  | (.ok sound, trD) =>
    let sound := env.setFrameRate 16000 sound
    let sound := env.setChannels 1 sound
    let sound := env.setSampleWidth 2 sound
    match env.exportWav sound with
    | .error e => (.error e, Ev.tmpCreate tmpPath :: trD)
    | .ok wav => (.ok wav, Ev.tmpCreate tmpPath :: (trD ++ [Ev.tmpDelete tmpPath]))

/-- Transcription Client, embedding `transcribe_audio` (lines 69-104).
Writes the WAV bytes to a temporary file, reads them back and submits them
to the service, unlinks the file, and returns the service result. As in
the source, the `os.unlink` on line 98 is reached only when the service
call succeeds; an exception re-raises past it. -/
def transcribe_audio {α σ : Type} (env : Env α σ) (tmpPath : Nat)
    (audio_data : Bytes) (filename : Option String) (language : String) :
    Except String (Transcription σ) × List Ev :=
  let fname := if pyTruthy filename then filename.getD "" else "audio.wav"
  match env.transcribe audio_data fname language with
  | .error e => (.error e, [Ev.tmpCreate tmpPath, Ev.transcribeCall])
  | .ok t => (.ok t, [Ev.tmpCreate tmpPath, Ev.transcribeCall, Ev.tmpDelete tmpPath])

/-- Request mapping of the handler. `none` means the key is absent from
`args`; values of present keys are strings. -/
structure Args where
  audio_data : Option String
  audio_url : Option String
  filename : Option String
  language : Option String
  deriving Repr, DecidableEq

/-- Response body: either the success shape
`{transcription_text, full_transcription}` or the failure shape
`{error: message}`. -/
inductive Body (σ : Type) where
  | success (transcription_text : String) (full_transcription : Transcription σ)
  | failure (error : String)
  deriving Repr, DecidableEq

/-- Structured handler response `{statusCode, body}`. -/
structure Response (σ : Type) where
  statusCode : Nat
  body : Body σ
  deriving Repr, DecidableEq

/-- Normalization followed by transcription and success formatting
(lines 148-161 of `main`): runs `convert_audio_to_wav` on the resolved
bytes, then `transcribe_audio` on the WAV, mapping any error to a 500
response (the handler's `except` clause) and success to a 200 response
carrying `transcription.text` and the transcription object itself. -/
def runPipeline {α σ : Type} (env : Env α σ) (data : Bytes)
    (filename language : String) : Response σ × List Ev :=
  match convert_audio_to_wav env 0 data (some filename) with
  | (.error e, tr1) => (⟨500, .failure e⟩, tr1)
  | (.ok wav, tr1) =>
    match transcribe_audio env 1 wav (some filename) language with
    | (.error e, tr2) => (⟨500, .failure e⟩, tr1 ++ tr2)
    | (.ok t, tr2) => (⟨200, .success t.text t⟩, tr1 ++ tr2)

/-- Request handler, embedding `main` (lines 106-167). Everything runs
inside one `try`; any exception value reaching the boundary becomes a 500
response with the exception message, so the function is total: no
exception escapes. Input resolution: if both `audio_data` and `audio_url`
are absent, a 400 response; if `audio_data` is present it is base64-decoded
(the URL is ignored); otherwise the URL is fetched and a non-200 status
yields a 400 response naming the status code. -/
def main {α σ : Type} (env : Env α σ) (args : Args) : Response σ × List Ev :=
  let filename := args.filename.getD "audio.wav"
  let language := args.language.getD "en"
  match args.audio_data, args.audio_url with
  | none, none =>
    (⟨400, .failure "Missing required parameter: either audio_data or audio_url"⟩, [])
  | some b64, _ =>
    match env.b64decode b64 with
    | .error e => (⟨500, .failure e⟩, [])
    | .ok data => runPipeline env data filename language
  | none, some url =>
    match env.httpGet url with
    | .error e => (⟨500, .failure e⟩, [Ev.httpGet url])
    | .ok (status, content) =>
      if status ≠ 200 then
        (⟨400, .failure ("Failed to download audio from URL. Status code: " ++ toString status)⟩,
          [Ev.httpGet url])
      else
        let (r, tr) := runPipeline env content filename language
        (r, Ev.httpGet url :: tr)

/-- Format hints of the decode attempts recorded in a trace, in order. -/
def decodeHints (tr : List Ev) : List (Option String) :=
  tr.filterMap fun e => match e with
    | .decodeAttempt h => some h
    | _ => none

/-- Did the trace invoke the normalizer? Every call to
`convert_audio_to_wav` records at least one decode attempt. -/
def invokedNormalizer (tr : List Ev) : Bool :=
  tr.any fun e => match e with
    | .decodeAttempt _ => true
    | _ => false

/-- Does the trace perform no side effect beyond (possibly) an HTTP GET --
no temporary file, no decode attempt, no service call? -/
def onlyHttpEffects (tr : List Ev) : Bool :=
  tr.all fun e => match e with
    | .httpGet _ => true
    | _ => false

/-! Concrete environments and requests, used to evaluate the model on
closed inputs. -/

/-- Environment in which every external collaborator succeeds. -/
def envOK : Env Unit Unit where
  decode := fun _ _ => .ok ()
  setFrameRate := fun _ a => a
  setChannels := fun _ a => a
  setSampleWidth := fun _ a => a
  exportWav := fun _ => .ok [82, 73, 70, 70]
  transcribe := fun _ _ _ => .ok ⟨"hello world", ()⟩
  httpGet := fun _ => .ok (200, [1])
  b64decode := fun _ => .ok [1]

/-- Environment in which every pydub decode attempt raises and the
transcription service raises. -/
def envDecodeFail : Env Unit Unit :=
  { envOK with
    decode := fun _ _ => .error "Decoding failed"
    transcribe := fun _ _ _ => .error "Service unavailable" }

/-- Environment in which the HTTP GET answers with status 404. -/
def env404 : Env Unit Unit :=
  { envOK with httpGet := fun _ => .ok (404, []) }

/-- Request carrying inline base64 audio only. -/
def argsInline : Args := ⟨some "QUJD", none, none, none⟩

/-- Request carrying no audio source at all. -/
def argsEmpty : Args := ⟨none, none, none, none⟩

/-- Request carrying a URL only. -/
def argsUrl : Args := ⟨none, some "http:/x", none, none⟩

/-- Request carrying both inline audio and a URL. -/
def argsBoth : Args := ⟨some "QUJD", some "http:/x", none, none⟩

/-! Trace-shape lemmas shared by several results. -/

/-- Every trace of the Audio Normalizer has one of four shapes: hinted
decode then delete, hinted decode then failed export, hinted decode plus
retry then delete, or hinted decode plus retry then failed export or
decode failure. -/
theorem convert_trace_shapes {α σ : Type} (env : Env α σ) (p : Nat)
    (d : Bytes) (f : Option String) :
    (convert_audio_to_wav env p d f).2
        = [Ev.tmpCreate p, Ev.decodeAttempt (formatHint f), Ev.tmpDelete p]
    ∨ (convert_audio_to_wav env p d f).2
        = [Ev.tmpCreate p, Ev.decodeAttempt (formatHint f)]
    ∨ (convert_audio_to_wav env p d f).2
        = [Ev.tmpCreate p, Ev.decodeAttempt (formatHint f), Ev.decodeAttempt none,
           Ev.tmpDelete p]
    ∨ (convert_audio_to_wav env p d f).2
        = [Ev.tmpCreate p, Ev.decodeAttempt (formatHint f), Ev.decodeAttempt none] := by
  unfold convert_audio_to_wav
  cases h1 : env.decode d (formatHint f) with
  | ok s1 =>
    cases h2 : env.exportWav (env.setSampleWidth 2 (env.setChannels 1 (env.setFrameRate 16000 s1))) <;>
      simp [h1, h2]
  | error e1 =>
    cases h2 : env.decode d none with
    | ok s2 =>
      cases h3 : env.exportWav (env.setSampleWidth 2 (env.setChannels 1 (env.setFrameRate 16000 s2))) <;>
        simp [h1, h2, h3]
    | error e2 => simp [h1, h2]

/-- Every trace of the Transcription Client is a creation followed by the
service call, with a deletion exactly when the call succeeded. -/
theorem transcribe_trace_shapes {α σ : Type} (env : Env α σ) (p : Nat)
    (d : Bytes) (f : Option String) (l : String) :
    (transcribe_audio env p d f l).2
        = [Ev.tmpCreate p, Ev.transcribeCall, Ev.tmpDelete p]
    ∨ (transcribe_audio env p d f l).2
        = [Ev.tmpCreate p, Ev.transcribeCall] := by
  unfold transcribe_audio
  cases h : env.transcribe d (if pyTruthy f then f.getD "" else "audio.wav") l <;> simp [h]

/-! Claim results. -/

/-- C1: the spec demands that the temporary file created by each of
`convert_audio_to_wav` and `transcribe_audio` no longer exists when the
call returns or raises, on every exit path. The code deletes the file only
on the success path: when both decode attempts raise (normalizer) or the
service call raises (client), the function re-raises with the file still
present. This theorem evaluates both functions at such a failing input:
each call ends in an error, its trace creates its temporary file, and no
deletion of that file ever occurs. -/
theorem temp_file_leak_on_failure :
    ((convert_audio_to_wav envDecodeFail 0 [0] (some "audio.wav")).1
        = Except.error "Decoding failed"
      ∧ Ev.tmpCreate 0 ∈ (convert_audio_to_wav envDecodeFail 0 [0] (some "audio.wav")).2
      ∧ Ev.tmpDelete 0 ∉ (convert_audio_to_wav envDecodeFail 0 [0] (some "audio.wav")).2)
    ∧ ((transcribe_audio envDecodeFail 1 [0] (some "audio.wav") "en").1
        = Except.error "Service unavailable"
      ∧ Ev.tmpCreate 1 ∈ (transcribe_audio envDecodeFail 1 [0] (some "audio.wav") "en").2
      ∧ Ev.tmpDelete 1 ∉ (transcribe_audio envDecodeFail 1 [0] (some "audio.wav") "en").2) := by
  exact ⟨⟨rfl, by decide, by decide⟩, rfl, by decide, by decide⟩

/-- C3: a request with neither `audio_data` nor `audio_url` yields status
400 with an error message beginning "Missing required parameter", and an
empty trace: no temporary file, no decode attempt, no HTTP request, no
service call. -/
theorem main_missing_source {α σ : Type} (env : Env α σ) (args : Args)
    (h1 : args.audio_data = none) (h2 : args.audio_url = none) :
    (main env args).1.statusCode = 400
    ∧ (∃ m, (main env args).1.body = Body.failure m
        ∧ strStartsWith m "Missing required parameter" = true)
    ∧ (main env args).2 = [] := by
  have hm : main env args
      = (⟨400, Body.failure "Missing required parameter: either audio_data or audio_url"⟩, []) := by
    simp only [main, h1, h2]
  rw [hm]
  exact ⟨rfl, ⟨_, rfl, by decide⟩, rfl⟩

/-- C3 witness: the theorem applied to the empty request in the all-success
environment. -/
theorem main_missing_source_witness :
    (main envOK argsEmpty).1.statusCode = 400 ∧ (main envOK argsEmpty).2 = [] :=
  ⟨(main_missing_source envOK argsEmpty rfl rfl).1,
   (main_missing_source envOK argsEmpty rfl rfl).2.2⟩

/-- C4: on the URL path, a GET answered with a status other than 200 yields
a 400 response whose error message contains that status code, and the
Audio Normalizer runs only when the status is 200. -/
theorem main_url_bad_status {α σ : Type} (env : Env α σ) (args : Args)
    (u : String) (st : Nat) (content : Bytes)
    (h1 : args.audio_data = none) (h2 : args.audio_url = some u)
    (h3 : env.httpGet u = .ok (st, content)) :
    (st ≠ 200 →
      (main env args).1.statusCode = 400
      ∧ (∃ a b, (main env args).1.body = Body.failure (a ++ toString st ++ b))
      ∧ invokedNormalizer (main env args).2 = false)
    ∧ (invokedNormalizer (main env args).2 = true → st = 200) := by
  by_cases hst : st = 200
  · subst hst
    exact ⟨fun hne => absurd rfl hne, fun _ => rfl⟩
  · have hm : main env args
        = (⟨400, Body.failure ("Failed to download audio from URL. Status code: "
            ++ toString st)⟩, [Ev.httpGet u]) := by
      simp only [main, h1, h2, h3, if_pos hst]
    rw [hm]
    refine ⟨fun _ => ⟨rfl, ⟨"Failed to download audio from URL. Status code: ", "", ?_⟩, rfl⟩,
      fun hinv => ?_⟩
    · simp
    · simp [invokedNormalizer] at hinv

/-- C4 witness: the theorem applied to the URL-only request in the
environment whose GET answers 404. -/
theorem main_url_bad_status_witness :
    (main env404 argsUrl).1.statusCode = 400
    ∧ invokedNormalizer (main env404 argsUrl).2 = false :=
  ⟨((main_url_bad_status env404 argsUrl "http:/x" 404 [] rfl rfl rfl).1 (by decide)).1,
   ((main_url_bad_status env404 argsUrl "http:/x" 404 [] rfl rfl rfl).1 (by decide)).2.2⟩

/-- C10: on both validation-failure paths -- both audio sources absent, or
the URL GET answering a status other than 200 -- the handler responds 400
and its trace contains no temporary-file creation, no decode attempt and
no service call (at most the triggering HTTP GET itself). -/
theorem main_validation_no_effects {α σ : Type} (env : Env α σ) (args : Args)
    (h : (args.audio_data = none ∧ args.audio_url = none)
       ∨ ∃ u st c, args.audio_data = none ∧ args.audio_url = some u
           ∧ env.httpGet u = .ok (st, c) ∧ st ≠ 200) :
    (main env args).1.statusCode = 400
    ∧ onlyHttpEffects (main env args).2 = true := by
  rcases h with ⟨h1, h2⟩ | ⟨u, st, c, h1, h2, h3, hst⟩
  · have hm : main env args
        = (⟨400, Body.failure "Missing required parameter: either audio_data or audio_url"⟩,
            []) := by
      simp only [main, h1, h2]
    rw [hm]
    exact ⟨rfl, rfl⟩
  · have hm : main env args
        = (⟨400, Body.failure ("Failed to download audio from URL. Status code: "
            ++ toString st)⟩, [Ev.httpGet u]) := by
      simp only [main, h1, h2, h3, if_pos hst]
    rw [hm]
    exact ⟨rfl, rfl⟩

/-- C10 witness: the theorem applied to the empty request and to the
URL-only request against the 404 environment. -/
theorem main_validation_no_effects_witness :
    ((main env404 argsEmpty).1.statusCode = 400
      ∧ onlyHttpEffects (main env404 argsEmpty).2 = true)
    ∧ ((main env404 argsUrl).1.statusCode = 400
      ∧ onlyHttpEffects (main env404 argsUrl).2 = true) :=
  ⟨main_validation_no_effects env404 argsEmpty (Or.inl ⟨rfl, rfl⟩),
   main_validation_no_effects env404 argsUrl
     (Or.inr ⟨"http:/x", 404, [], rfl, rfl, rfl, by decide⟩)⟩

/-- Helper: the normalization-plus-transcription pipeline never performs an
HTTP GET. -/
theorem runPipeline_trace_no_http {α σ : Type} (env : Env α σ) (d : Bytes)
    (f l v : String) : Ev.httpGet v ∉ (runPipeline env d f l).2 := by
  have hc := convert_trace_shapes env 0 d (some f)
  unfold runPipeline
  rcases h1 : convert_audio_to_wav env 0 d (some f) with ⟨r1, tr1⟩
  rw [h1] at hc
  simp only [Prod.snd] at hc
  cases r1 with
  | error e => rcases hc with h | h | h | h <;> subst h <;> simp
  | ok wav =>
    have ht := transcribe_trace_shapes env 1 wav (some f) l
    rcases h2 : transcribe_audio env 1 wav (some f) l with ⟨r2, tr2⟩
    rw [h2] at ht
    simp only [Prod.snd] at ht
    dsimp only
    rw [h2]
    cases r2 <;> rcases hc with h | h | h | h <;> rcases ht with h' | h' <;>
      subst h <;> subst h' <;> simp

/-- C8: when a request carries both `audio_data` and `audio_url`, the
handler behaves exactly as it would with the URL removed (the inline data
is decoded and used), and its trace never performs an HTTP GET. -/
theorem main_inline_precedence {α σ : Type} (env : Env α σ) (args : Args)
    (d u : String) (h1 : args.audio_data = some d) (h2 : args.audio_url = some u) :
    main env args = main env { args with audio_url := none }
    ∧ ∀ v, Ev.httpGet v ∉ (main env args).2 := by
  rcases args with ⟨ad, au, fn, lg⟩
  simp only at h1 h2
  subst h1; subst h2
  constructor
  · rfl
  · intro v
    simp only [main]
    cases hb : env.b64decode d with
    | error e => simp
    | ok data => exact runPipeline_trace_no_http env data _ _ v

/-- C8 witness: the theorem applied to the request carrying both sources,
in the all-success environment. -/
theorem main_inline_precedence_witness :
    main envOK argsBoth = main envOK { argsBoth with audio_url := none }
    ∧ ∀ v, Ev.httpGet v ∉ (main envOK argsBoth).2 :=
  main_inline_precedence envOK argsBoth "QUJD" "http:/x" rfl rfl

/-- Helper: the pipeline part of the handler responds 200 or 500, and
responds 200 exactly when the body has the success shape. -/
theorem runPipeline_contract {α σ : Type} (env : Env α σ) (d : Bytes) (f l : String) :
    ((runPipeline env d f l).1.statusCode = 200 ∨ (runPipeline env d f l).1.statusCode = 500)
    ∧ ((runPipeline env d f l).1.statusCode = 200 ↔
        ∃ s t, (runPipeline env d f l).1.body = Body.success s t) := by
  unfold runPipeline
  rcases h1 : convert_audio_to_wav env 0 d (some f) with ⟨r1, tr1⟩
  cases r1 with
  | error e => simp
  | ok wav =>
    dsimp only
    rcases h2 : transcribe_audio env 1 wav (some f) l with ⟨r2, tr2⟩
    cases r2 with
    | error e => simp
    | ok t => simp

/-- C2: for every environment and request, the handler returns a structured
response whose status is 200, 400 or 500, with status 200 exactly when the
body has the success shape (and an error-message body otherwise). The
handler is a total function of the oracle environment: every component
error value is consumed at the boundary, so no exception escapes. -/
theorem main_response_contract {α σ : Type} (env : Env α σ) (args : Args) :
    ((main env args).1.statusCode = 200 ∨ (main env args).1.statusCode = 400
      ∨ (main env args).1.statusCode = 500)
    ∧ ((main env args).1.statusCode = 200 ↔
        ∃ s t, (main env args).1.body = Body.success s t) := by
  rcases args with ⟨ad, au, fn, lg⟩
  cases ad with
  | some b64 =>
    simp only [main]
    cases hb : env.b64decode b64 with
    | error e => simp
    | ok data =>
      have h := runPipeline_contract env data (fn.getD "audio.wav") (lg.getD "en")
      exact ⟨h.1.imp id Or.inr, h.2⟩
  | none =>
    cases au with
    | none => simp [main]
    | some url =>
      simp only [main]
      cases hg : env.httpGet url with
      | error e => simp
      | ok p =>
        rcases p with ⟨st, content⟩
        dsimp only
        by_cases hst : st = 200
        · subst hst
          rw [if_neg (by simp)]
          have h := runPipeline_contract env content (fn.getD "audio.wav") (lg.getD "en")
          rcases hp : runPipeline env content (fn.getD "audio.wav") (lg.getD "en") with ⟨r, tr⟩
          rw [hp] at h
          dsimp only at h ⊢
          exact ⟨h.1.imp id Or.inr, h.2⟩
        · rw [if_pos hst]
          simp

/-- C5: when the decode attempt with the filename-derived hint fails and
the automatic-detection retry also fails, the retry happens exactly once
(the trace holds exactly two decode attempts, the first hinted and the
second unhinted), the second failure propagates out of the normalizer, and
the handler responds 500 carrying that error message. -/
theorem main_decode_retry_then_500 {α σ : Type} (env : Env α σ) (args : Args)
    (b64 : String) (data : Bytes) (fmt e1 e2 : String)
    (h1 : args.audio_data = some b64)
    (hb : env.b64decode b64 = .ok data)
    (hf : formatHint (some (args.filename.getD "audio.wav")) = some fmt)
    (hd1 : env.decode data (some fmt) = .error e1)
    (hd2 : env.decode data none = .error e2) :
    (main env args).1 = ⟨500, Body.failure e2⟩
    ∧ decodeHints (main env args).2 = [some fmt, none] := by
  have hc : convert_audio_to_wav env 0 data (some (args.filename.getD "audio.wav"))
      = (.error e2, [Ev.tmpCreate 0, Ev.decodeAttempt (some fmt), Ev.decodeAttempt none]) := by
    unfold convert_audio_to_wav
    rw [hf]
    dsimp only
    rw [hd1]
    dsimp only
    rw [hd2]
  have hm : main env args
      = (⟨500, Body.failure e2⟩,
          [Ev.tmpCreate 0, Ev.decodeAttempt (some fmt), Ev.decodeAttempt none]) := by
    simp only [main, h1, hb]
    unfold runPipeline
    rw [hc]
  rw [hm]
  exact ⟨rfl, rfl⟩

/-- C5 witness: the theorem applied to the inline request in the
environment where every decode attempt raises; the default filename gives
hint "wav". -/
theorem main_decode_retry_then_500_witness :
    (main envDecodeFail argsInline).1 = ⟨500, Body.failure "Decoding failed"⟩
    ∧ decodeHints (main envDecodeFail argsInline).2 = [some "wav", none] :=
  main_decode_retry_then_500 envDecodeFail argsInline "QUJD" [1] "wav"
    "Decoding failed" "Decoding failed" rfl rfl (by decide) rfl rfl

/-- Helper: a 200 pipeline response carries the transcription object
returned by the Transcription Client, with `transcription_text` equal to
its `text` field and `full_transcription` the object itself. -/
theorem runPipeline_success_passthrough {α σ : Type} (env : Env α σ) (d : Bytes)
    (f l : String) (h : (runPipeline env d f l).1.statusCode = 200) :
    ∃ wav t, (transcribe_audio env 1 wav (some f) l).1 = Except.ok t
      ∧ (runPipeline env d f l).1 = ⟨200, Body.success t.text t⟩ := by
  unfold runPipeline at h ⊢
  rcases h1 : convert_audio_to_wav env 0 d (some f) with ⟨r1, tr1⟩
  rw [h1] at h
  cases r1 with
  | error e => simp at h
  | ok wav =>
    dsimp only at h ⊢
    rcases h2 : transcribe_audio env 1 wav (some f) l with ⟨r2, tr2⟩
    rw [h2] at h
    cases r2 with
    | error e => simp at h
    | ok t => exact ⟨wav, t, by rw [h2], rfl⟩

/-- Helper: when both pipeline stages succeed, the pipeline responds 200
with the service object passed through. -/
theorem runPipeline_forward {α σ : Type} (env : Env α σ) (d : Bytes) (f l : String)
    (wav : Bytes) (t : Transcription σ)
    (hc : (convert_audio_to_wav env 0 d (some f)).1 = Except.ok wav)
    (ht : (transcribe_audio env 1 wav (some f) l).1 = Except.ok t) :
    (runPipeline env d f l).1 = ⟨200, Body.success t.text t⟩ := by
  unfold runPipeline
  rcases h1 : convert_audio_to_wav env 0 d (some f) with ⟨r1, tr1⟩
  rw [h1] at hc
  simp only [Prod.fst] at hc
  subst hc
  dsimp only
  rcases h2 : transcribe_audio env 1 wav (some f) l with ⟨r2, tr2⟩
  rw [h2] at ht
  simp only [Prod.fst] at ht
  subst ht
  rfl

/-- C6: every successful end-to-end run (input resolved, normalization and
transcription both succeeded) responds 200 with `transcription_text` equal
to the `text` field of the object the Transcription Client obtained from
the service and `full_transcription` that object itself, passed through
unchanged; and conversely every 200 response carries such a service object
this way. -/
theorem main_success_passthrough {α σ : Type} (env : Env α σ) (args : Args) :
    (∀ b64 data wav t, args.audio_data = some b64 →
        env.b64decode b64 = Except.ok data →
        (convert_audio_to_wav env 0 data (some (args.filename.getD "audio.wav"))).1
          = Except.ok wav →
        (transcribe_audio env 1 wav (some (args.filename.getD "audio.wav"))
            (args.language.getD "en")).1 = Except.ok t →
        (main env args).1 = ⟨200, Body.success t.text t⟩)
    ∧ ((main env args).1.statusCode = 200 →
        ∃ wav t, (transcribe_audio env 1 wav (some (args.filename.getD "audio.wav"))
            (args.language.getD "en")).1 = Except.ok t
          ∧ (main env args).1 = ⟨200, Body.success t.text t⟩) := by
  rcases args with ⟨ad, au, fn, lg⟩
  constructor
  · intro b64 data wav t h1 hb hc ht
    have h1' : ad = some b64 := h1
    subst h1'
    simp only [main]
    rw [hb]
    dsimp only
    exact runPipeline_forward env data (fn.getD "audio.wav") (lg.getD "en") wav t hc ht
  · intro h200
    cases ad with
    | some b64 =>
      simp only [main] at h200 ⊢
      cases hb : env.b64decode b64 with
      | error e => rw [hb] at h200; simp at h200
      | ok data =>
        rw [hb] at h200
        dsimp only at h200 ⊢
        exact runPipeline_success_passthrough env data (fn.getD "audio.wav") (lg.getD "en") h200
    | none =>
      cases au with
      | none => simp [main] at h200
      | some url =>
        simp only [main] at h200 ⊢
        cases hg : env.httpGet url with
        | error e => rw [hg] at h200; simp at h200
        | ok p =>
          rcases p with ⟨st, content⟩
          rw [hg] at h200
          dsimp only at h200 ⊢
          simp only [ne_eq, ite_not] at h200 ⊢
          by_cases hst : st = 200
          · subst hst
            rw [if_pos rfl] at h200 ⊢
            dsimp only at h200 ⊢
            exact runPipeline_success_passthrough env content (fn.getD "audio.wav")
              (lg.getD "en") h200
          · rw [if_neg hst] at h200
            simp at h200

/-- C6 witness: in the all-success environment the inline request yields a
200 response built from the service object, in both directions of the
theorem. -/
theorem main_success_passthrough_witness :
    (main envOK argsInline).1 = ⟨200, Body.success "hello world" ⟨"hello world", ()⟩⟩
    ∧ ∃ wav t, (transcribe_audio envOK 1 wav (some (argsInline.filename.getD "audio.wav"))
        (argsInline.language.getD "en")).1 = Except.ok t
      ∧ (main envOK argsInline).1 = ⟨200, Body.success t.text t⟩ :=
  ⟨(main_success_passthrough envOK argsInline).1 "QUJD" [1] [82, 73, 70, 70]
      ⟨"hello world", ()⟩ rfl rfl rfl rfl,
   (main_success_passthrough envOK argsInline).2 rfl⟩

/-- Helper: the decode attempts of one pipeline run are exactly one hinted
first attempt, possibly followed by one automatic-detection retry. -/
theorem runPipeline_decodeHints {α σ : Type} (env : Env α σ) (d : Bytes) (f l : String) :
    decodeHints (runPipeline env d f l).2 = [formatHint (some f)]
    ∨ decodeHints (runPipeline env d f l).2 = [formatHint (some f), none] := by
  have hc := convert_trace_shapes env 0 d (some f)
  unfold runPipeline
  rcases h1 : convert_audio_to_wav env 0 d (some f) with ⟨r1, tr1⟩
  rw [h1] at hc
  simp only [Prod.snd] at hc
  cases r1 with
  | error e => rcases hc with hh | hh | hh | hh <;> subst hh <;> simp [decodeHints]
  | ok wav =>
    have ht := transcribe_trace_shapes env 1 wav (some f) l
    rcases h2 : transcribe_audio env 1 wav (some f) l with ⟨r2, tr2⟩
    rw [h2] at ht
    simp only [Prod.snd] at ht
    dsimp only
    rw [h2]
    cases r2 <;> rcases hc with hh | hh | hh | hh <;> rcases ht with hh' | hh' <;>
      subst hh <;> subst hh' <;> simp [decodeHints]

/-- C9: for a request without a `filename` key, the handler passes the
default filename "audio.wav" to the normalizer, so any first decode
attempt carries the hint "wav": the decode attempts of the whole run are
none, one hinted "wav", or hinted "wav" followed by the automatic retry.
The hint-skipping branch is never taken on such requests. -/
theorem main_default_filename_hint {α σ : Type} (env : Env α σ) (args : Args)
    (h : args.filename = none) :
    decodeHints (main env args).2 = []
    ∨ decodeHints (main env args).2 = [some "wav"]
    ∨ decodeHints (main env args).2 = [some "wav", none] := by
  have hwav : formatHint (some "audio.wav") = some "wav" := by decide
  rcases args with ⟨ad, au, fn, lg⟩
  simp only at h
  subst h
  cases ad with
  | some b64 =>
    simp only [main]
    cases hb : env.b64decode b64 with
    | error e => simp [decodeHints]
    | ok data =>
      dsimp only
      rcases runPipeline_decodeHints env data "audio.wav" (lg.getD "en") with hh | hh <;>
        rw [hwav] at hh
      · exact Or.inr (Or.inl hh)
      · exact Or.inr (Or.inr hh)
  | none =>
    cases au with
    | none => simp [main, decodeHints]
    | some url =>
      simp only [main]
      cases hg : env.httpGet url with
      | error e => simp [decodeHints]
      | ok p =>
        rcases p with ⟨st, content⟩
        dsimp only
        by_cases hst : st = 200
        · subst hst
          rw [if_neg (show ¬(200 ≠ 200) by simp)]
          have hcons : decodeHints (Ev.httpGet url
                :: (runPipeline env content "audio.wav" (lg.getD "en")).2)
              = decodeHints (runPipeline env content "audio.wav" (lg.getD "en")).2 := by
            simp [decodeHints]
          rcases runPipeline_decodeHints env content "audio.wav" (lg.getD "en") with hh | hh <;>
            rw [hwav] at hh
          · exact Or.inr (Or.inl (hcons.trans hh))
          · exact Or.inr (Or.inr (hcons.trans hh))
        · rw [if_pos hst]
          simp [decodeHints]

/-- C9 witness: the theorem applied to the inline request (no filename
key) in the all-success environment, where exactly one hinted attempt
occurs. -/
theorem main_default_filename_hint_witness :
    decodeHints (main envOK argsInline).2 = []
    ∨ decodeHints (main envOK argsInline).2 = [some "wav"]
    ∨ decodeHints (main envOK argsInline).2 = [some "wav", none] :=
  main_default_filename_hint envOK argsInline rfl

end Emails
